import Mathlib

/-!
Shallow embedding of the background synchronization core of a browser
extension for a remote download manager: the no-permissions retry wrapper,
the poll coordinator (`pollTasks`), the completion-notification decision
logic over the tracked terminal-task-ID set, and the download submission
pipeline (`addDownloadTasksAndPoll`, `maybeMapUrlToFile`, `guessFileName`).

Machine integers are modelled as `Nat`; promises are modelled by explicit
outcome values (`PromiseOutcome`); the persisted cache is modelled by
records of written fields; network and storage effects are modelled by
explicit traces of events.
-/

namespace SynologyDM

/-- A remote download task as the extension sees it: stable unique `id`,
`title`, and a `status` string (`"finished"`, `"seeding"`, or a
non-terminal status). -/
structure DownloadTask where
  id : String
  title : String
  status : String
deriving DecidableEq, Repr

/-- The persisted `taskFetchFailureReason` non-null values:
TS `"missing-config" | \x7b failureMessage: string \x7d`. -/
inductive FetchFailureReason where
  | missingConfig
  | failureMessage (message : String)
deriving DecidableEq, Repr

/-- Result of a remote API call: TS `ConnectionFailure | SynologyResponse<D>`.
A `ConnectionFailure` carries its `type` string (e.g. `"missing-config"`);
a response is either a success carrying data or a failure carrying a
numeric error code. -/
inductive SynologyResult (D : Type) where
  | connectionFailure (type : String)
  | success (data : D)
  | failure (errorCode : Nat)
deriving DecidableEq, Repr

/-- TS `isConnectionFailure(result)`. -/
def isConnectionFailure {D : Type} : SynologyResult D → Bool
  | .connectionFailure _ => true
  | _ => false

/-- TS `result.success`. -/
def isSuccess {D : Type} : SynologyResult D → Bool
  | .success _ => true
  | _ => false

/-- TS `result.error.code`, defined only on unsuccessful responses. -/
def errorCodeOf {D : Type} : SynologyResult D → Option Nat
  | .failure code => some code
  | _ => none

/-- TS constant `NO_PERMISSIONS_ERROR_CODE = 105`. -/
def NO_PERMISSIONS_ERROR_CODE : Nat := 105

/-! ### No-permission retry wrapper (`wrapInNoPermissionsRetry`)

The underlying remote call `fn` is modelled as a function from the call
arguments and the zero-based index of the invocation (how many underlying
invocations happened before) to its settled result; the side effects are
recorded in an `ApiTrace`: the argument of each underlying invocation in
order, and how many times `api.Auth.Logout()` was issued. -/

/-- Trace of the side effects of wrapped API calls. -/
structure ApiTrace (Args : Type) where
  calls : List Args
  logouts : Nat
deriving DecidableEq, Repr

/-- Invoke the underlying call: its result is determined by the arguments
and by how many underlying invocations happened before. -/
def callUnderlying {Args D : Type} (fn : Args → Nat → SynologyResult D)
    (args : Args) (tr : ApiTrace Args) : SynologyResult D × ApiTrace Args :=
  (fn args tr.calls.length, { tr with calls := tr.calls ++ [args] })

/-- TS `api.Auth.Logout()`. -/
def authLogout {Args : Type} (tr : ApiTrace Args) : ApiTrace Args :=
  { tr with logouts := tr.logouts + 1 }

/-- The retry condition of the wrapper, exactly as in the source:
`!isConnectionFailure(result) && !result.success && result.error.code === NO_PERMISSIONS_ERROR_CODE`. -/
def shouldRetry {D : Type} (result : SynologyResult D) : Bool :=
  !isConnectionFailure result && !isSuccess result &&
    errorCodeOf result == some NO_PERMISSIONS_ERROR_CODE

/-- TS `wrapInNoPermissionsRetry(fn)` applied to `args`, starting from
trace `tr`: invoke `fn`; if the result triggers the retry condition,
issue a logout and re-invoke `fn` once with the same arguments, returning
that second result; otherwise return the first result. -/
def wrapInNoPermissionsRetry {Args D : Type} (fn : Args → Nat → SynologyResult D)
    (args : Args) (tr : ApiTrace Args) : SynologyResult D × ApiTrace Args :=
  let r := callUnderlying fn args tr
  if shouldRetry r.1 then
    callUnderlying fn args (authLogout r.2)
  else
    r

/-! ### Poll coordinator (`pollTasks`)

A promise is modelled by its settled outcome. The cache is modelled by the
partial write records passed to `browser.storage.local.set`: an outer
`none` on a field means the key is absent from the written object (the
stored value for that key is untouched); `some v` means the key is written
with value `v`, where `v` itself is an `Option` mirroring the nullable TS
fields. -/

/-- Outcome of a settled promise. -/
inductive PromiseOutcome (A : Type) where
  | resolved (value : A)
  | rejected
deriving DecidableEq, Repr

/-- A partial write to the persisted `CachedTasks` record, as passed to
`browser.storage.local.set`. -/
structure CachedTasksWrite where
  tasks : Option (List DownloadTask) := none
  taskFetchFailureReason : Option (Option FetchFailureReason) := none
  tasksLastCompletedFetchTimestamp : Option (Option Nat) := none
  tasksLastInitiatedFetchTimestamp : Option (Option Nat) := none
deriving DecidableEq, Repr

/-- TS `setCachedTasksResponse(cachedTasks)`: builds
`\x7b tasksLastCompletedFetchTimestamp: Date.now(), ...cachedTasks \x7d`.
The spread puts `cachedTasks`'s keys after the timestamp, so a key present
in `cachedTasks` would win; the timestamp key is absent from every actual
argument, in which case the commit-time timestamp is written. -/
def setCachedTasksResponse (commitTime : Nat) (cachedTasks : CachedTasksWrite) :
    CachedTasksWrite :=
  { cachedTasks with
    tasksLastCompletedFetchTimestamp :=
      match cachedTasks.tasksLastCompletedFetchTimestamp with
      | none => some (some commitTime)
      | some v => some v }

/-- The classification of a settled task-list response inside `pollTasks`,
producing the single result write. `msgConn` models
`errorMessageFromConnectionFailure` (a message derived from the failure)
and `msgCode` models `errorMessageFromCode(code, 'DownloadStation.Task')`;
both live outside the embedded sources and are abstract parameters. -/
def classifyPollResponse (msgConn : String → String) (msgCode : Nat → String)
    (commitTime : Nat) (response : SynologyResult (List DownloadTask)) :
    CachedTasksWrite :=
  match response with
  | .connectionFailure type =>
    if type = "missing-config" then
      setCachedTasksResponse commitTime
        { taskFetchFailureReason := some (some .missingConfig) }
    else
      setCachedTasksResponse commitTime
        { taskFetchFailureReason := some (some (.failureMessage (msgConn type))) }
  | .success tasks =>
    setCachedTasksResponse commitTime
      { tasks := some tasks, taskFetchFailureReason := some none }
  | .failure code =>
    setCachedTasksResponse commitTime
      { taskFetchFailureReason := some (some (.failureMessage (msgCode code))) }

/-- The observable effects of one `pollTasks(api)` invocation. -/
structure PollRun where
  /-- Whether the promise returned to the caller resolved. -/
  resolvedPromise : Bool
  /-- The initiated-timestamp write, if that storage write was performed. -/
  initiatedWrite : Option CachedTasksWrite
  /-- The result-plus-completed-timestamp write, if performed. -/
  resultWrite : Option CachedTasksWrite
deriving DecidableEq, Repr

/-- TS `pollTasks(api)`. `initTime` is `Date.now()` captured when the poll
starts; `commitTime` is `Date.now()` captured when the settled response is
committed. `initWriteOutcome` is the outcome of the storage write of the
initiated timestamp, `pollOutcome` the outcome of the wrapped task-list
call, `commitWriteOutcome` the outcome of the result storage write. The
two promises are joined with `Promise.all`, whose rejection (as well as a
rejected result write) lands in the final `.catch`, which logs and
resolves without any further write. -/
def pollTasks (msgConn : String → String) (msgCode : Nat → String)
    (initTime commitTime : Nat)
    (initWriteOutcome : PromiseOutcome Unit)
    (pollOutcome : PromiseOutcome (SynologyResult (List DownloadTask)))
    (commitWriteOutcome : PromiseOutcome Unit) : PollRun :=
  let initiatedWrite : Option CachedTasksWrite :=
    match initWriteOutcome with
    | .resolved _ => some { tasksLastInitiatedFetchTimestamp := some (some initTime) }
    | .rejected => none
  match initWriteOutcome, pollOutcome with
  | .resolved _, .resolved response =>
    { resolvedPromise := true
      initiatedWrite := initiatedWrite
      resultWrite :=
        match commitWriteOutcome with
        | .resolved _ => some (classifyPollResponse msgConn msgCode commitTime response)
        | .rejected => none }
  | _, _ =>
    { resolvedPromise := true
      initiatedWrite := initiatedWrite
      resultWrite := none }

/-! ### Notification decision engine (`onStoredStateChange` handler)

The handler reads the stored state on each cache-change event and keeps
the module-global `finishedTaskIds : string[] | undefined` (`none` until
the first confirmed poll). It returns the new value of `finishedTaskIds`
together with the IDs of the tasks for which a completion notification was
fired during this event. -/

/-- The part of the stored state the completion-notification logic reads. -/
structure StoredState where
  tasks : List DownloadTask
  taskFetchFailureReason : Option FetchFailureReason
  tasksLastCompletedFetchTimestamp : Option Nat
  /-- `settings.notifications.enableCompletionNotifications`. -/
  enableCompletionNotifications : Bool
deriving DecidableEq, Repr

/-- The guard of the completion-notification block, exactly as in the
source: `tasksLastCompletedFetchTimestamp != null &&
tasksLastCompletedFetchTimestamp > START_TIME && taskFetchFailureReason == null`. -/
def confirmedFetch (startTime : Nat) (s : StoredState) : Bool :=
  match s.tasksLastCompletedFetchTimestamp with
  | some t => decide (t > startTime) && s.taskFetchFailureReason.isNone
  | none => false

/-- TS `storedState.tasks.filter(t => t.status === "finished" || t.status === "seeding").map(t => t.id)`. -/
def updatedFinishedTaskIds (s : StoredState) : List String :=
  (s.tasks.filter (fun t => t.status = "finished" || t.status = "seeding")).map
    (fun t => t.id)

/-- One firing of the `onStoredStateChange` handler, restricted to the
completion-notification block: given the tracked set `tracked`
(`finishedTaskIds`) and the freshly stored state, returns the new tracked
set and the IDs notified during this event. In the source the
`enableCompletionNotifications` check sits inside the per-ID loop; it does
not vary across the loop, so the notified list is the newly finished IDs
when enabled and empty otherwise. -/
def handleFinishedTasks (startTime : Nat) (tracked : Option (List String))
    (s : StoredState) : Option (List String) × List String :=
  if confirmedFetch startTime s then
    let updated := updatedFinishedTaskIds s
    let notified : List String :=
      match tracked with
      | some old =>
        let newlyFinishedTaskIds := updated.filter (fun id => !old.contains id)
        if s.enableCompletionNotifications then newlyFinishedTaskIds else []
      | none => []
    let newTracked :=
      tracked.getD [] ++
        updated.filter (fun taskId =>
          tracked.isNone || !((tracked.getD []).contains taskId))
    (some newTracked, notified)
  else
    (tracked, [])

/-- One event step of the accumulated run: thread the tracked set through
the handler and append the notified IDs to the log. -/
def notifyStep (startTime : Nat) (acc : Option (List String) × List String)
    (s : StoredState) : Option (List String) × List String :=
  let r := handleFinishedTasks startTime acc.1 s
  (r.1, acc.2 ++ r.2)

/-- Run the handler over a sequence of cache-change events starting from
the process-start state (`finishedTaskIds = undefined`), accumulating the
notified IDs in order. -/
def runNotificationHandler (startTime : Nat) (events : List StoredState) :
    Option (List String) × List String :=
  events.foldl (notifyStep startTime) (none, [])

/-- The tracked set after running the handler over `events` from an
arbitrary starting value of `finishedTaskIds`. -/
def runTracked (startTime : Nat) (tracked : Option (List String))
    (events : List StoredState) : Option (List String) :=
  events.foldl (fun tr s => (handleFinishedTasks startTime tr s).1) tracked

/-! ### Download task submission pipeline (`addDownloadTasksAndPoll`)

Per-URL resolution (`maybeMapUrlToFile` followed by `rejectUnknownUrls`)
is abstracted by a per-URL settled outcome; the probing logic itself is
modelled separately below. Notifications are modelled by an event trace:
`notify` without an ID creates a notification, `notify` with the stored
`notificationId` updates that notification in place. -/

/-- TS `FormFile`: a fetched metadata file, `filename` plus content. -/
structure FormFile where
  filename : String
  content : String
deriving DecidableEq, Repr

/-- TS constant `DOWNLOADABLE_PROTOCOLS`. -/
def DOWNLOADABLE_PROTOCOLS : List String :=
  ["http", "https", "ftp", "ftps", "magnet", "thunder", "flashget", "qqdl"]

/-- JS `s.startsWith(pre)` on the modelled strings. -/
def strStartsWith (s pre : String) : Bool :=
  s.toList.take pre.toList.length == pre.toList

/-- JS `s.slice(n)` for a non-negative `n` on the modelled strings. -/
def strDrop (s : String) (n : Nat) : String := String.mk (s.toList.drop n)

/-- TS `startsWithAnyProtocol(url, protocols)`:
`protocols.some(protocol => url.startsWith(protocol + ":"))`. -/
def startsWithAnyProtocol (url : String) (protocols : List String) : Bool :=
  protocols.any (fun protocol => strStartsWith url (protocol ++ ":"))

/-- Settled outcome of `maybeMapUrlToFile(url)` for one URL: a fetched
metadata file, the bare URL itself, or a rejected promise (probe or fetch
error). -/
inductive ResolveOutcome where
  | file (f : FormFile)
  | url (u : String)
  | rejected
deriving DecidableEq, Repr

/-- Settled outcome of one URL after `rejectUnknownUrls`. -/
inductive SettledItem where
  | file (f : FormFile)
  | uri (u : String)
  | err
deriving DecidableEq, Repr

/-- TS `rejectUnknownUrls`: a form file passes through; a bare URL passes
through when its scheme is in `DOWNLOADABLE_PROTOCOLS` and is rejected
otherwise; a rejected resolution stays rejected. -/
def rejectUnknownUrls (o : ResolveOutcome) : SettledItem :=
  match o with
  | .file f => .file f
  | .url task =>
    if startsWithAnyProtocol task DOWNLOADABLE_PROTOCOLS then .uri task else .err
  | .rejected => .err

/-- The request object passed to `doCreateTask`:
`\x7b file, uri, destination \x7d`. -/
structure CreateTaskRequest where
  file : List FormFile
  uri : List String
  destination : Option String
deriving DecidableEq, Repr

/-- A notification event: creation of a fresh notification, or an in-place
update reusing the `notificationId` captured at submission start. -/
inductive NotifyEvent where
  | create (title : String) (body : Option String)
  | update (title : String) (body : Option String)
deriving DecidableEq, Repr

/-- The destination computation of `addDownloadTasksAndPoll`:
`path && path.startsWith('/') ? path.slice(1) : undefined`. An empty path
is falsy in JS; `strStartsWith "" "/"` is `false`, giving the same
`undefined`. -/
def destinationOf (path : Option String) : Option String :=
  match path with
  | some p => if strStartsWith p "/" then some (strDrop p 1) else none
  | none => none

/-- The observable effects of one `addDownloadTasksAndPoll` invocation. -/
structure SubmitRun where
  events : List NotifyEvent
  /-- The batched create request, if `doCreateTask` was invoked. -/
  createRequest : Option CreateTaskRequest
  /-- Whether the post-submission re-poll was invoked. -/
  polled : Bool
deriving DecidableEq, Repr

/-- TS `addDownloadTasksAndPoll(api, urls, path?)`. `resolve` gives the
settled outcome of `maybeMapUrlToFile` for each URL; `createOutcome` the
outcome of the `doCreateTask` promise when it is invoked. When `urls` is
non-empty a notification is created (singular or plural wording);
`destination` is `path && path.startsWith('/') ? path.slice(1) : undefined`;
the per-URL outcomes are partitioned with all-settled semantics, rejected
items dropped; if nothing resolved, the promise resolves with no create
call; otherwise resolved items are split into `file` and `uri` subsets and
submitted as one batched create, whose settled result flows directly into
the re-poll (the source chains `.then(pollOnResponse)` on `doCreateTask`
without any notification update; `notifyTaskAddResult` is defined but
never invoked). A rejected create lands in the final `.catch`, which fires
the generic failure update. -/
def addDownloadTasksAndPoll (urls : List String) (path : Option String)
    (resolve : String → ResolveOutcome)
    (createOutcome : PromiseOutcome (SynologyResult Unit)) : SubmitRun :=
  if urls.length > 0 then
    let startEvent :=
      if urls.length = 1 then
        NotifyEvent.create "Adding download..." (some (urls.headD ""))
      else
        NotifyEvent.create ("Adding " ++ toString urls.length ++ " downloads...") none
    let destination : Option String := destinationOf path
    let settled := urls.map (fun u => rejectUnknownUrls (resolve u))
    let resolved := settled.filter (fun s => !(s matches .err))
    if resolved.length = 0 then
      { events := [startEvent], createRequest := none, polled := false }
    else
      let file := resolved.filterMap (fun s =>
        match s with | .file f => some f | _ => none)
      let uri := resolved.filterMap (fun s =>
        match s with | .uri u => some u | _ => none)
      let request : CreateTaskRequest :=
        { file := file, uri := uri, destination := destination }
      match createOutcome with
      | .resolved _ =>
        { events := [startEvent], createRequest := some request, polled := true }
      | .rejected =>
        { events :=
            [startEvent,
             NotifyEvent.update "Failed to add download"
               (some "Unexpected error; please check your settings and try again")]
          createRequest := some request
          polled := false }
  else
    { events := [NotifyEvent.create "Failed to add download" (some "No URL to download given")]
      createRequest := none
      polled := false }

/-! ### URL probing and metadata-file fetching (`maybeMapUrlToFile`, `guessFileName`)

Network behaviour is a parameter: `head` gives the HEAD probe response for
a URL and `get` the GET fetch response. The issued network requests are
recorded as a trace, so "no probe" and "not fetched" are statable. JS
strings are modelled by Lean strings; the JS numeric coercion `+s` of a
content-length header is modelled on integral inputs, with `none` playing
the role of `NaN`. -/

/-- TS `MetadataFileType`. -/
structure MetadataFileType where
  mediaType : String
  extension : String
deriving DecidableEq, Repr

/-- TS constant `METADATA_FILE_TYPES`. -/
def METADATA_FILE_TYPES : List MetadataFileType :=
  [ { mediaType := "application/x-bittorrent", extension := ".torrent" },
    { mediaType := "application/x-nzb", extension := ".nzb" } ]

/-- TS constant `AUTO_DOWNLOAD_TORRENT_FILE_PROTOCOLS`. -/
def AUTO_DOWNLOAD_TORRENT_FILE_PROTOCOLS : List String := ["http", "https"]

/-- TS constant `ARBITRARY_FILE_FETCH_SIZE_CUTOFF = 1024 * 1024 * 5`. -/
def ARBITRARY_FILE_FETCH_SIZE_CUTOFF : Nat := 1024 * 1024 * 5

/-- JS `s.endsWith(post)` on the modelled strings. -/
def strEndsWith (s post : String) : Bool := decide (post.toList <:+ s.toList)

/-- Parse a (non-empty, all-digit) decimal string; `none` otherwise. -/
def parseDecimal (cs : List Char) : Option Nat :=
  if cs ≠ [] ∧ cs.all Char.isDigit then
    some (cs.foldl (fun a c => a * 10 + (c.toNat - 48)) 0)
  else none

/-- The JS coercion `+header` of a content-length header value, modelled
for integral header values: an absent header (`+undefined`) and a
non-numeric value coerce to `NaN` (`none`); the empty string coerces to
`0`; a digit string coerces to its value. -/
def jsToNumber (header : Option String) : Option Nat :=
  match header with
  | none => none
  | some s => if s = "" then some 0 else parseDecimal s.toList

/-- JS `s.toLowerCase()` on the modelled strings. -/
def strToLower (s : String) : String := String.mk (s.toList.map Char.toLower)

/-- Headers of the HEAD probe response that `maybeMapUrlToFile` reads. -/
structure HttpHeadResponse where
  contentType : String
  contentLength : Option String
deriving DecidableEq, Repr

/-- The GET fetch response: body bytes (abstracted as a string) and the
content-disposition header. -/
structure HttpGetResponse where
  data : String
  contentDisposition : Option String
deriving DecidableEq, Repr

/-- A network request issued during per-URL resolution. -/
inductive NetEvent where
  | head (url : String)
  | get (url : String)
deriving DecidableEq, Repr

/-- JS `url.indexOf('?') !== -1 ? url.slice(0, url.indexOf('?')) : url`. -/
def urlWithoutQueryOf (url : String) : String :=
  if url.toList.contains '?' then
    String.mk (url.toList.takeWhile (fun c => c ≠ '?'))
  else url

/-- The regex `FILENAME_PROPERTY_REGEX = /filename=("([^\"]+)"|([^\"][^ ]+))/`
applied at one position: `cs` is the text right after a literal
`filename=`. The quoted alternative needs at least one non-quote character
and a closing quote; the unquoted alternative needs a first character that
is not a quote followed by at least one non-space character (i.e. at least
two characters up to the next space). Mirrors what
`regexMatch[2] || regexMatch[3]` extracts. -/
def filenameGroupAt (cs : List Char) : Option String :=
  match cs with
  | [] => none
  | c :: rest =>
    if c = '"' then
      let content := rest.takeWhile (fun ch => ch ≠ '"')
      if content.length > 0 ∧ rest.drop content.length ≠ [] then
        some (String.mk content)
      else none
    else
      let tok := rest.takeWhile (fun ch => ch ≠ ' ')
      if tok.length > 0 then some (String.mk (c :: tok)) else none

/-- `FILENAME_PROPERTY_REGEX.exec(s)`: scan positions left to right; at
the first position where the literal `filename=` and one of the two
alternatives match, return the captured group; if no position matches,
return `none` (the regex returned `null`). -/
def execFilenameRegex (cs : List Char) : Option String :=
  match cs with
  | [] => none
  | _ :: rest =>
    if cs.take 9 = "filename=".toList then
      match filenameGroupAt (cs.drop 9) with
      | some r => some r
      | none => execFilenameRegex rest
    else execFilenameRegex rest

/-- JS `hay.indexOf(needle) !== -1` for the modelled strings. -/
def containsSub (hay needle : List Char) : Bool :=
  match hay with
  | [] => needle.isEmpty
  | _ :: rest => hay.take needle.length = needle || containsSub rest needle

/-- JS `urlWithoutQuery.slice(urlWithoutQuery.lastIndexOf('/') + 1)`: the
characters after the last `/`, or the whole string if there is none. -/
def afterLastSlash (s : String) : String :=
  String.mk ((s.toList.reverse.takeWhile (fun c => c ≠ '/')).reverse)

/-- TS `guessFileName(urlWithoutQuery, headers, metadataFileType)`: if a
content-disposition header is present and contains `filename=`, the name
is the regex capture (or nothing when the regex does not match); otherwise
the name is the URL's last path segment; a missing or empty name falls
back to `"download"`; finally the metadata type's extension is appended
unless the name already ends with it. -/
def guessFileName (urlWithoutQuery : String) (headers : Option String)
    (metadataFileType : MetadataFileType) : String :=
  let maybeFilename : Option String :=
    match headers with
    | some contentDisposition =>
      if containsSub contentDisposition.toList "filename=".toList then
        execFilenameRegex contentDisposition.toList
      else some (afterLastSlash urlWithoutQuery)
    | none => some (afterLastSlash urlWithoutQuery)
  let name :=
    match maybeFilename with
    | none => "download"
    | some s => if s.length = 0 then "download" else s
  if strEndsWith name metadataFileType.extension then name
  else name ++ metadataFileType.extension

/-- The filename=-parameter extraction as the spec sentence for the
filename cascade describes it (for comparison against `guessFileName`):
the value of the first `filename=` parameter of the header — the quoted
content for the quoted form, the token up to the next space for the
unquoted form — and `none` when no `filename=` parameter with a non-empty
value is present. -/
def claimFilenameParamValue (cs : List Char) : Option String :=
  match cs with
  | [] => none
  | _ :: rest =>
    if cs.take 9 = "filename=".toList then
      match cs.drop 9 with
      | '"' :: r =>
        let content := r.takeWhile (fun c => c ≠ '"')
        if content.length > 0 then some (String.mk content) else none
      | v =>
        let tok := v.takeWhile (fun c => c ≠ ' ')
        if tok.length > 0 then some (String.mk tok) else none
    else claimFilenameParamValue rest

/-- The filename cascade exactly as the spec sentence states it: the
content-disposition `filename=` parameter when present, else the URL's
last path segment, else the literal `"download"`; the metadata type's
canonical extension appended iff the chosen name does not already end
with it. -/
def filenameFollowingClaim (urlWithoutQuery : String) (headers : Option String)
    (metadataFileType : MetadataFileType) : String :=
  let name :=
    match headers.bind (fun cd => claimFilenameParamValue cd.toList) with
    | some param => param
    | none =>
      let seg := afterLastSlash urlWithoutQuery
      if seg.length = 0 then "download" else seg
  if strEndsWith name metadataFileType.extension then name
  else name ++ metadataFileType.extension

/-- The `find(METADATA_FILE_TYPES, ...)` step of `maybeMapUrlToFile`:
matched by lower-cased media type or by URL suffix. -/
def findMetadataFileType (contentType urlWithoutQuery : String) :
    Option MetadataFileType :=
  METADATA_FILE_TYPES.find? (fun fileType =>
    contentType = fileType.mediaType ||
      strEndsWith urlWithoutQuery fileType.extension)

/-- TS `maybeMapUrlToFile(url)`: for a non-http/https URL, resolve to the
bare URL with no network traffic; otherwise issue the HEAD probe, match
the metadata-type table, and — only when matched with a numeric
content-length strictly under the cutoff — issue the GET fetch and build
the `FormFile`; in every other probed case resolve to the bare URL. -/
def maybeMapUrlToFile (head : String → HttpHeadResponse)
    (get : String → HttpGetResponse) (url : String) :
    ResolveOutcome × List NetEvent :=
  if startsWithAnyProtocol url AUTO_DOWNLOAD_TORRENT_FILE_PROTOCOLS then
    let response := head url
    let contentType := strToLower response.contentType
    let contentLength := response.contentLength
    let urlWithoutQuery := urlWithoutQueryOf url
    match findMetadataFileType contentType urlWithoutQuery with
    | some metadataFileType =>
      match jsToNumber contentLength with
      | some n =>
        if n < ARBITRARY_FILE_FETCH_SIZE_CUTOFF then
          let fetched := get url
          (.file
            { content := fetched.data
              filename :=
                guessFileName urlWithoutQuery fetched.contentDisposition
                  metadataFileType },
           [.head url, .get url])
        else (.url url, [.head url])
      | none => (.url url, [.head url])
    | none => (.url url, [.head url])
  else (.url url, [])

end SynologyDM

namespace SynologyDM

/-! ## Helper lemmas -/

/-- Unfold the retry condition into the three source conjuncts. -/
theorem shouldRetry_eq_true_iff {D : Type} (r : SynologyResult D) :
    shouldRetry r = true ↔
      isConnectionFailure r = false ∧ isSuccess r = false ∧
        errorCodeOf r = some NO_PERMISSIONS_ERROR_CODE := by
  simp [shouldRetry, Bool.and_eq_true, Bool.not_eq_true', beq_iff_eq, and_assoc]

/-- The classification always commits the commit-time completed timestamp. -/
theorem classifyPollResponse_completed (msgConn : String → String)
    (msgCode : Nat → String) (commitTime : Nat)
    (response : SynologyResult (List DownloadTask)) :
    (classifyPollResponse msgConn msgCode commitTime response).tasksLastCompletedFetchTimestamp =
      some (some commitTime) := by
  cases response with
  | connectionFailure type =>
    by_cases h : type = "missing-config" <;>
      simp [classifyPollResponse, setCachedTasksResponse, h]
  | success tasks => simp [classifyPollResponse, setCachedTasksResponse]
  | failure code => simp [classifyPollResponse, setCachedTasksResponse]

/-! ## Claims -/

/-- C2: for every wrapped remote call, if the first result is not a
connection failure, is unsuccessful, and its error code is the
no-permissions code 105, the wrapper issues exactly one logout and exactly
one re-invocation with the same arguments and returns the second result
verbatim (two underlying invocations in total, so no third); in every
other case the first result is returned unchanged, with a single
invocation and no logout. -/
theorem wrapInNoPermissionsRetry_retry_law {Args D : Type}
    (fn : Args → Nat → SynologyResult D) (args : Args) :
    (isConnectionFailure (fn args 0) = false → isSuccess (fn args 0) = false →
      errorCodeOf (fn args 0) = some NO_PERMISSIONS_ERROR_CODE →
      wrapInNoPermissionsRetry fn args ⟨[], 0⟩ = (fn args 1, ⟨[args, args], 1⟩)) ∧
    (¬(isConnectionFailure (fn args 0) = false ∧ isSuccess (fn args 0) = false ∧
        errorCodeOf (fn args 0) = some NO_PERMISSIONS_ERROR_CODE) →
      wrapInNoPermissionsRetry fn args ⟨[], 0⟩ = (fn args 0, ⟨[args], 0⟩)) := by
  constructor
  · intro h1 h2 h3
    have hr : shouldRetry (fn args 0) = true :=
      (shouldRetry_eq_true_iff _).mpr ⟨h1, h2, h3⟩
    simp [wrapInNoPermissionsRetry, callUnderlying, authLogout, hr]
  · intro h
    have hr : shouldRetry (fn args 0) = false := by
      rcases Bool.eq_false_or_eq_true (shouldRetry (fn args 0)) with hf | ht
      · exact absurd ((shouldRetry_eq_true_iff _).mp hf) h
      · exact ht
    simp [wrapInNoPermissionsRetry, callUnderlying, hr]

/-- C2 witness: a permission failure followed by a success returns the
success with one logout and two same-argument invocations. -/
theorem wrapInNoPermissionsRetry_retry_law_witness :
    wrapInNoPermissionsRetry
      (fun (_ : Unit) (n : Nat) => if n = 0 then SynologyResult.failure 105 else .success ())
      () ⟨[], 0⟩ = (.success (), ⟨[(), ()], 1⟩) :=
  (wrapInNoPermissionsRetry_retry_law
    (fun (_ : Unit) (n : Nat) => if n = 0 then SynologyResult.failure 105 else .success ())
    ()).1 rfl rfl rfl

end SynologyDM

namespace SynologyDM

/-- C3: for every settled task-list response, the classification commits
exactly one result write, falling into one of four mutually exclusive
outcomes keyed on the response shape — missing-config connection failure,
other connection failure, application success (tasks replaced wholesale,
failure reason cleared), application error — and in every branch that same
single write carries the completed-fetch timestamp captured at commit
time, not the poll-start time. -/
theorem pollTasks_classification (msgConn : String → String) (msgCode : Nat → String)
    (initTime commitTime : Nat) (response : SynologyResult (List DownloadTask)) :
    (pollTasks msgConn msgCode initTime commitTime (.resolved ()) (.resolved response)
        (.resolved ())).resultWrite =
      some (classifyPollResponse msgConn msgCode commitTime response) ∧
    (classifyPollResponse msgConn msgCode commitTime response).tasksLastCompletedFetchTimestamp =
      some (some commitTime) ∧
    (response = .connectionFailure "missing-config" →
      classifyPollResponse msgConn msgCode commitTime response =
        { taskFetchFailureReason := some (some .missingConfig)
          tasksLastCompletedFetchTimestamp := some (some commitTime) }) ∧
    (∀ type, response = .connectionFailure type → type ≠ "missing-config" →
      classifyPollResponse msgConn msgCode commitTime response =
        { taskFetchFailureReason := some (some (.failureMessage (msgConn type)))
          tasksLastCompletedFetchTimestamp := some (some commitTime) }) ∧
    (∀ tasks, response = .success tasks →
      classifyPollResponse msgConn msgCode commitTime response =
        { tasks := some tasks, taskFetchFailureReason := some none
          tasksLastCompletedFetchTimestamp := some (some commitTime) }) ∧
    (∀ code, response = .failure code →
      classifyPollResponse msgConn msgCode commitTime response =
        { taskFetchFailureReason := some (some (.failureMessage (msgCode code)))
          tasksLastCompletedFetchTimestamp := some (some commitTime) }) := by
  refine ⟨rfl, classifyPollResponse_completed _ _ _ _, ?_, ?_, ?_, ?_⟩
  · rintro rfl
    simp [classifyPollResponse, setCachedTasksResponse]
  · rintro type rfl hne
    simp [classifyPollResponse, setCachedTasksResponse, hne]
  · rintro tasks rfl
    simp [classifyPollResponse, setCachedTasksResponse]
  · rintro code rfl
    simp [classifyPollResponse, setCachedTasksResponse]

/-- C3 witness: a successful response replaces the task list, clears the
failure reason, and stamps the commit time 7 (not the poll-start time 5). -/
theorem pollTasks_classification_witness :
    (pollTasks (fun _ => "conn") (fun _ => "code") 5 7 (.resolved ())
        (.resolved (.success [⟨"1", "t", "finished"⟩])) (.resolved ())).resultWrite =
      some { tasks := some [⟨"1", "t", "finished"⟩], taskFetchFailureReason := some none
             tasksLastCompletedFetchTimestamp := some (some 7) } := by
  have h := pollTasks_classification (fun _ => "conn") (fun _ => "code") 5 7
    (.success [⟨"1", "t", "finished"⟩])
  rw [h.1, h.2.2.2.2.1 [⟨"1", "t", "finished"⟩] rfl]

/-- C5: `pollTasks` never rejects — for every combination of storage-write
and task-list outcomes, including rejected promises, the returned promise
resolves; and whenever an exception occurs (the task-list call or a
storage write rejects), the result-plus-completed-timestamp write is not
performed, and the only other write (the initiated-timestamp write) never
touches `tasks`, `taskFetchFailureReason`, or
`tasksLastCompletedFetchTimestamp`. -/
theorem pollTasks_never_rejects (msgConn : String → String) (msgCode : Nat → String)
    (initTime commitTime : Nat) (initWriteOutcome : PromiseOutcome Unit)
    (pollOutcome : PromiseOutcome (SynologyResult (List DownloadTask)))
    (commitWriteOutcome : PromiseOutcome Unit) :
    (pollTasks msgConn msgCode initTime commitTime initWriteOutcome pollOutcome
        commitWriteOutcome).resolvedPromise = true ∧
    (pollOutcome = .rejected ∨ initWriteOutcome = .rejected ∨ commitWriteOutcome = .rejected →
      (pollTasks msgConn msgCode initTime commitTime initWriteOutcome pollOutcome
          commitWriteOutcome).resultWrite = none) ∧
    (∀ w, (pollTasks msgConn msgCode initTime commitTime initWriteOutcome pollOutcome
        commitWriteOutcome).initiatedWrite = some w →
      w.tasks = none ∧ w.taskFetchFailureReason = none ∧
        w.tasksLastCompletedFetchTimestamp = none) := by
  refine ⟨?_, ?_, ?_⟩
  · cases initWriteOutcome <;> cases pollOutcome <;> rfl
  · intro h
    cases initWriteOutcome <;> cases pollOutcome <;> cases commitWriteOutcome <;>
      simp_all [pollTasks]
  · intro w hw
    cases initWriteOutcome <;> cases pollOutcome <;>
      simp_all [pollTasks] <;> simp [← hw]

/-- C5 witness: a rejected task-list call still resolves and performs no
result write, and the initiated write touches only the initiated
timestamp. -/
theorem pollTasks_never_rejects_witness :
    (pollTasks (fun _ => "conn") (fun _ => "code") 5 7 (.resolved ()) .rejected
        (.resolved ())).resolvedPromise = true ∧
    (pollTasks (fun _ => "conn") (fun _ => "code") 5 7 (.resolved ()) .rejected
        (.resolved ())).resultWrite = none ∧
    ({ tasksLastInitiatedFetchTimestamp := some (some 5)} : CachedTasksWrite).tasks = none := by
  have h := pollTasks_never_rejects (fun _ => "conn") (fun _ => "code") 5 7
    (.resolved ()) .rejected (.resolved ())
  exact ⟨h.1, h.2.1 (Or.inl rfl), (h.2.2 _ rfl).1⟩

/-- C6: assuming a monotone clock (commit time not before poll-start
time), the completed timestamp written by an invocation is at least the
initiated timestamp written by the same invocation. -/
theorem pollTasks_completed_ge_initiated (msgConn : String → String)
    (msgCode : Nat → String) (initTime commitTime : Nat)
    (initWriteOutcome : PromiseOutcome Unit)
    (pollOutcome : PromiseOutcome (SynologyResult (List DownloadTask)))
    (commitWriteOutcome : PromiseOutcome Unit)
    (hclock : initTime ≤ commitTime) :
    ∀ wi wr,
      (pollTasks msgConn msgCode initTime commitTime initWriteOutcome pollOutcome
          commitWriteOutcome).initiatedWrite = some wi →
      (pollTasks msgConn msgCode initTime commitTime initWriteOutcome pollOutcome
          commitWriteOutcome).resultWrite = some wr →
      ∃ ti tc, wi.tasksLastInitiatedFetchTimestamp = some (some ti) ∧
        wr.tasksLastCompletedFetchTimestamp = some (some tc) ∧ ti ≤ tc := by
  intro wi wr hwi hwr
  refine ⟨initTime, commitTime, ?_, ?_, hclock⟩
  · cases initWriteOutcome <;> cases pollOutcome <;> simp_all [pollTasks] <;> simp [← hwi]
  · cases initWriteOutcome <;> cases pollOutcome <;> cases commitWriteOutcome <;>
      simp_all [pollTasks]
    rw [← hwr]
    exact classifyPollResponse_completed _ _ _ _

/-- C6 witness: with poll-start time 5 and commit time 7 the written pair
satisfies the inequality. -/
theorem pollTasks_completed_ge_initiated_witness :
    ∃ ti tc,
      ({ tasksLastInitiatedFetchTimestamp := some (some 5) } :
          CachedTasksWrite).tasksLastInitiatedFetchTimestamp = some (some ti) ∧
      (classifyPollResponse (fun _ => "conn") (fun _ => "code") 7
          (.success [])).tasksLastCompletedFetchTimestamp = some (some tc) ∧
      ti ≤ tc :=
  pollTasks_completed_ge_initiated (fun _ => "conn") (fun _ => "code") 5 7
    (.resolved ()) (.resolved (.success [])) (.resolved ()) (by decide) _ _ rfl rfl

end SynologyDM

namespace SynologyDM

/-- A non-confirmed event leaves the tracked set untouched and notifies
nobody. -/
theorem handleFinishedTasks_not_confirmed (startTime : Nat)
    (tracked : Option (List String)) (s : StoredState)
    (h : confirmedFetch startTime s = false) :
    handleFinishedTasks startTime tracked s = (tracked, []) := by
  simp [handleFinishedTasks, h]

/-- Every step of the handler preserves membership in the tracked set. -/
theorem handleFinishedTasks_preserves_tracked (startTime : Nat)
    (tracked : Option (List String)) (s : StoredState) (id : String)
    (h : id ∈ tracked.getD []) :
    id ∈ (handleFinishedTasks startTime tracked s).1.getD [] := by
  by_cases hc : confirmedFetch startTime s = true
  · simp only [handleFinishedTasks, hc, if_true, Option.getD_some]
    exact List.mem_append_left _ h
  · rw [handleFinishedTasks_not_confirmed startTime tracked s
      (Bool.not_eq_true _ ▸ hc)]
    exact h

/-- A notified ID was not in the tracked set before the event. -/
theorem handleFinishedTasks_notified_not_tracked (startTime : Nat)
    (tracked : Option (List String)) (s : StoredState) (id : String)
    (h : id ∈ (handleFinishedTasks startTime tracked s).2) :
    id ∉ tracked.getD [] := by
  by_cases hc : confirmedFetch startTime s = true
  · cases tracked with
    | none =>
      simp [handleFinishedTasks, hc] at h
    | some old =>
      simp only [handleFinishedTasks, hc, if_true] at h
      by_cases he : s.enableCompletionNotifications = true
      · simp only [he, if_true] at h
        have := (List.mem_filter.mp h).2
        simpa using this
      · simp [Bool.not_eq_true _ ▸ he] at h
  · rw [handleFinishedTasks_not_confirmed startTime tracked s
      (Bool.not_eq_true _ ▸ hc)] at h
    simp at h

/-- A notified ID is in the tracked set after the event. -/
theorem handleFinishedTasks_notified_tracked (startTime : Nat)
    (tracked : Option (List String)) (s : StoredState) (id : String)
    (h : id ∈ (handleFinishedTasks startTime tracked s).2) :
    id ∈ (handleFinishedTasks startTime tracked s).1.getD [] := by
  by_cases hc : confirmedFetch startTime s = true
  · cases tracked with
    | none =>
      simp [handleFinishedTasks, hc] at h
    | some old =>
      simp only [handleFinishedTasks, hc, if_true] at h ⊢
      by_cases he : s.enableCompletionNotifications = true
      · simp only [he, if_true] at h
        have hmem : id ∈ updatedFinishedTaskIds s := List.mem_of_mem_filter h
        have hnot : (!old.contains id) = true := (List.mem_filter.mp h).2
        refine List.mem_append_right _ ?_
        refine List.mem_filter.mpr ⟨hmem, ?_⟩
        simpa using hnot
      · simp [Bool.not_eq_true _ ▸ he] at h
  · rw [handleFinishedTasks_not_confirmed startTime tracked s
      (Bool.not_eq_true _ ▸ hc)] at h
    simp at h

/-- When the task IDs of the event are pairwise distinct, an event
notifies a given ID at most once. -/
theorem handleFinishedTasks_notified_count (startTime : Nat)
    (tracked : Option (List String)) (s : StoredState) (id : String)
    (hids : (s.tasks.map (fun t => t.id)).Nodup) :
    (handleFinishedTasks startTime tracked s).2.count id ≤ 1 := by
  have hupd : (updatedFinishedTaskIds s).Nodup := by
    unfold updatedFinishedTaskIds
    exact hids.sublist ((List.filter_sublist s.tasks).map (fun t => t.id))
  by_cases hc : confirmedFetch startTime s = true
  · cases tracked with
    | none => simp [handleFinishedTasks, hc]
    | some old =>
      simp only [handleFinishedTasks, hc, if_true]
      by_cases he : s.enableCompletionNotifications = true
      · simp only [he, if_true]
        exact List.nodup_iff_count_le_one.mp
          (hupd.sublist (List.filter_sublist _)) id
      · simp [Bool.not_eq_true _ ▸ he]
  · rw [handleFinishedTasks_not_confirmed startTime tracked s
      (Bool.not_eq_true _ ▸ hc)]
    simp

/-- Invariant of the accumulated run: if the log holds a given ID at most
once and every logged ID is tracked, this persists over any sequence of
events with pairwise-distinct task IDs. -/
theorem notifyFold_invariant (startTime : Nat) (id : String) :
    ∀ (events : List StoredState),
      (∀ s ∈ events, (s.tasks.map (fun t => t.id)).Nodup) →
      ∀ (tracked : Option (List String)) (log : List String),
        log.count id ≤ 1 → (id ∈ log → id ∈ tracked.getD []) →
        (events.foldl (notifyStep startTime) (tracked, log)).2.count id ≤ 1 ∧
          (id ∈ (events.foldl (notifyStep startTime) (tracked, log)).2 →
            id ∈ (events.foldl (notifyStep startTime) (tracked, log)).1.getD []) := by
  intro events
  induction events with
  | nil => intro _ tracked log h1 h2; exact ⟨h1, h2⟩
  | cons s rest ih =>
    intro hn tracked log h1 h2
    have hs : (s.tasks.map (fun t => t.id)).Nodup := hn s (List.mem_cons_self _ _)
    have hrest : ∀ s' ∈ rest, (s'.tasks.map (fun t => t.id)).Nodup :=
      fun s' hs' => hn s' (List.mem_cons_of_mem _ hs')
    simp only [List.foldl_cons]
    have hstep : notifyStep startTime (tracked, log) s =
        ((handleFinishedTasks startTime tracked s).1,
          log ++ (handleFinishedTasks startTime tracked s).2) := rfl
    rw [hstep]
    apply ih hrest
    · rw [List.count_append]
      by_cases hm : id ∈ log
      · have hnot : id ∉ (handleFinishedTasks startTime tracked s).2 := fun hin =>
          handleFinishedTasks_notified_not_tracked startTime tracked s id hin (h2 hm)
        rw [List.count_eq_zero.mpr hnot]
        exact h1
      · rw [List.count_eq_zero.mpr hm]
        simpa using handleFinishedTasks_notified_count startTime tracked s id hs
    · intro hmem
      rcases List.mem_append.mp hmem with h | h
      · exact handleFinishedTasks_preserves_tracked startTime tracked s id (h2 h)
      · exact handleFinishedTasks_notified_tracked startTime tracked s id h

end SynologyDM

namespace SynologyDM

/-- C1: at most one completion notification fires per task ID across the
process lifetime. On the first confirmed poll (completed-fetch timestamp
present, strictly after process start, failure reason null) the tracked
set is seeded with every finished/seeding task ID and nothing is notified;
and across any sequence of cache-change events with pairwise-distinct task
IDs, the accumulated run notifies any given ID at most once. -/
theorem atMostOneNotificationPerTask (startTime : Nat) (events : List StoredState)
    (id : String)
    (hids : ∀ s ∈ events, (s.tasks.map (fun t => t.id)).Nodup) :
    (∀ s, confirmedFetch startTime s = true →
      handleFinishedTasks startTime none s = (some (updatedFinishedTaskIds s), [])) ∧
    (runNotificationHandler startTime events).2.count id ≤ 1 := by
  constructor
  · intro s hc
    simp [handleFinishedTasks, hc]
  · have h := notifyFold_invariant startTime id events hids none []
      (by simp) (by simp)
    simpa [runNotificationHandler] using h.1

/-- C1 witness: the Scenario A event sequence (downloading, then finished
twice over) notifies task 1 at most once. -/
theorem atMostOneNotificationPerTask_witness :
    (runNotificationHandler 10
      [ { tasks := [⟨"1", "t", "downloading"⟩], taskFetchFailureReason := none
          tasksLastCompletedFetchTimestamp := some 11, enableCompletionNotifications := true },
        { tasks := [⟨"1", "t", "finished"⟩], taskFetchFailureReason := none
          tasksLastCompletedFetchTimestamp := some 12, enableCompletionNotifications := true },
        { tasks := [⟨"1", "t", "finished"⟩], taskFetchFailureReason := none
          tasksLastCompletedFetchTimestamp := some 13, enableCompletionNotifications := true } ]).2.count
      "1" ≤ 1 :=
  (atMostOneNotificationPerTask 10 _ "1" (by decide)).2

/-- C10: the tracked terminal-ID set is monotone — an event failing the
confirmed-poll preconditions leaves the state entirely unchanged (and
notifies nobody), a single step never removes an ID, and over any sequence
of events an ID present in the tracked set stays present. -/
theorem trackedSetMonotone (startTime : Nat) (events : List StoredState)
    (tracked : Option (List String)) (id : String) :
    (∀ s tr, confirmedFetch startTime s = false →
      handleFinishedTasks startTime tr s = (tr, [])) ∧
    (∀ s tr, id ∈ (tr : Option (List String)).getD [] →
      id ∈ (handleFinishedTasks startTime tr s).1.getD []) ∧
    (id ∈ tracked.getD [] →
      id ∈ (runTracked startTime tracked events).getD []) := by
  refine ⟨fun s tr h => handleFinishedTasks_not_confirmed startTime tr s h,
    fun s tr h => handleFinishedTasks_preserves_tracked startTime tr s id h, ?_⟩
  induction events generalizing tracked with
  | nil => intro h; simpa [runTracked] using h
  | cons s rest ih =>
    intro h
    have hstep : runTracked startTime tracked (s :: rest) =
        runTracked startTime ((handleFinishedTasks startTime tracked s).1) rest := rfl
    rw [hstep]
    exact ih _ (handleFinishedTasks_preserves_tracked startTime tracked s id h)

/-- C10 witness: an already-tracked ID survives a later confirmed event
that no longer lists the task. -/
theorem trackedSetMonotone_witness :
    "1" ∈ (runTracked 10 (some ["1"])
      [ { tasks := [⟨"2", "u", "finished"⟩], taskFetchFailureReason := none
          tasksLastCompletedFetchTimestamp := some 12, enableCompletionNotifications := true } ]).getD
      [] :=
  (trackedSetMonotone 10 _ (some ["1"]) "1").2.2 (by decide)

end SynologyDM

namespace SynologyDM

/-- C7: per-URL resolution policy — a URL whose scheme is not http/https
resolves to the bare URL with no network traffic; a http/https URL whose
HEAD probe matches a known metadata type with a numeric content-length
strictly under the 5 MiB cutoff resolves to a fetched file-content item
(HEAD then GET); a matched URL whose content-length is missing/non-numeric
or at/over the cutoff resolves to the bare URL with no GET fetch; and a
bare URL on a downloadable protocol passes the unknown-URL filter into the
uri side of the batch. -/
theorem maybeMapUrlToFile_policy (head : String → HttpHeadResponse)
    (get : String → HttpGetResponse) (url : String) :
    (startsWithAnyProtocol url AUTO_DOWNLOAD_TORRENT_FILE_PROTOCOLS = false →
      maybeMapUrlToFile head get url = (.url url, [])) ∧
    (∀ ft n, startsWithAnyProtocol url AUTO_DOWNLOAD_TORRENT_FILE_PROTOCOLS = true →
      findMetadataFileType (strToLower (head url).contentType) (urlWithoutQueryOf url) =
        some ft →
      jsToNumber (head url).contentLength = some n →
      n < ARBITRARY_FILE_FETCH_SIZE_CUTOFF →
      maybeMapUrlToFile head get url =
        (.file { content := (get url).data
                 filename := guessFileName (urlWithoutQueryOf url)
                   (get url).contentDisposition ft },
         [.head url, .get url])) ∧
    (∀ ft, startsWithAnyProtocol url AUTO_DOWNLOAD_TORRENT_FILE_PROTOCOLS = true →
      findMetadataFileType (strToLower (head url).contentType) (urlWithoutQueryOf url) =
        some ft →
      (jsToNumber (head url).contentLength = none ∨
        ∃ n, jsToNumber (head url).contentLength = some n ∧
          ¬n < ARBITRARY_FILE_FETCH_SIZE_CUTOFF) →
      maybeMapUrlToFile head get url = (.url url, [.head url])) ∧
    (startsWithAnyProtocol url DOWNLOADABLE_PROTOCOLS = true →
      rejectUnknownUrls (.url url) = .uri url) := by
  refine ⟨fun h => by simp [maybeMapUrlToFile, h], ?_, ?_,
    fun h => by simp [rejectUnknownUrls, h]⟩
  · intro ft n hs hft hn hlt
    simp [maybeMapUrlToFile, hs, hft, hn, hlt]
  · intro ft hs hft hor
    rcases hor with h | ⟨n, hn, hge⟩
    · simp [maybeMapUrlToFile, hs, hft, h]
    · simp [maybeMapUrlToFile, hs, hft, hn, hge]

/-- C7 witness: a magnet URI is resolved bare with no probe and flows into
the uri side of the batch. -/
theorem maybeMapUrlToFile_policy_witness :
    maybeMapUrlToFile (fun _ => ⟨"application/x-bittorrent", some "1024"⟩)
      (fun _ => ⟨"DATA", none⟩) "magnet:?xt=abc" = (.url "magnet:?xt=abc", []) ∧
    rejectUnknownUrls (.url "magnet:?xt=abc") = .uri "magnet:?xt=abc" :=
  ⟨(maybeMapUrlToFile_policy (fun _ => ⟨"application/x-bittorrent", some "1024"⟩)
      (fun _ => ⟨"DATA", none⟩) "magnet:?xt=abc").1 (by decide),
   (maybeMapUrlToFile_policy (fun _ => ⟨"application/x-bittorrent", some "1024"⟩)
      (fun _ => ⟨"DATA", none⟩) "magnet:?xt=abc").2.2.2 (by decide)⟩

end SynologyDM

namespace SynologyDM

/-- Both regex alternatives capture at least one character. -/
theorem filenameGroupAt_pos (cs : List Char) (name : String)
    (h : filenameGroupAt cs = some name) : 0 < name.length := by
  match cs with
  | [] => simp [filenameGroupAt] at h
  | c :: rest =>
    by_cases hq : c = '"'
    · simp only [filenameGroupAt, hq, if_true] at h
      split at h
      · rename_i hcond
        cases h
        simpa [String.length] using hcond.1
      · cases h
    · simp only [filenameGroupAt, hq, if_false] at h
      split at h
      · cases h
        simp [String.length]
      · cases h

/-- A successful regex capture is never empty. -/
theorem execFilenameRegex_pos (cs : List Char) (name : String)
    (h : execFilenameRegex cs = some name) : 0 < name.length := by
  induction cs with
  | nil => simp [execFilenameRegex] at h
  | cons c rest ih =>
    unfold execFilenameRegex at h
    split at h
    · cases hg : filenameGroupAt ((c :: rest).drop 9) with
      | some r =>
        rw [hg] at h
        cases h
        exact filenameGroupAt_pos _ _ hg
      | none =>
        rw [hg] at h
        exact ih h
    · exact ih h

/-- Appending a string makes it a suffix. -/
theorem strEndsWith_append (s post : String) : strEndsWith (s ++ post) post = true := by
  apply decide_eq_true
  show post.toList <:+ (s ++ post).toList
  have : (s ++ post).toList = s.toList ++ post.toList := by simp [String.toList]
  rw [this]
  exact List.suffix_append _ _

/-- The extension-appending step always yields a string ending in the
extension. -/
theorem appendExtension_endsWith (name ext : String) :
    strEndsWith (if strEndsWith name ext then name else name ++ ext) ext = true := by
  by_cases h : strEndsWith name ext = true
  · simp [h]
  · simp [Bool.not_eq_true _ ▸ h, strEndsWith_append]

end SynologyDM

namespace SynologyDM

/-- C8 counterexample: with content-disposition `attachment; filename=a`
(a single-character unquoted value, which the extraction pattern does not
match) the code yields `download.torrent`, while the cascade as claimed
yields the parameter value `a.torrent`; the URL's last segment `y` is not
consulted either. -/
theorem guessFileName_cascade_counterexample :
    guessFileName "http://x/y" (some "attachment; filename=a")
      { mediaType := "application/x-bittorrent", extension := ".torrent" } =
      "download.torrent" ∧
    filenameFollowingClaim "http://x/y" (some "attachment; filename=a")
      { mediaType := "application/x-bittorrent", extension := ".torrent" } =
      "a.torrent" ∧
    (("download.torrent" : String) == "a.torrent") = false ∧
    (("download.torrent" : String) == "y.torrent") = false := by
  refine ⟨by decide, by decide, by decide, by decide⟩

/-- C8 (amended): the derived filename follows the cascade — when the
content-disposition header is present and contains `filename=`, the name
is the regex capture (quoted form with at least one character, or unquoted
form with at least two characters up to a space), and when the pattern
fails to match, the name falls back to the literal `download` without
consulting the URL; when the header is absent or has no `filename=`, the
name is the URL's last path segment, or `download` when that segment is
empty; in every case the canonical extension is appended iff the name does
not already end with it, so the result always ends with the extension. -/
theorem guessFileName_cascade (url : String) (cd : Option String)
    (ft : MetadataFileType) :
    (∀ c name, cd = some c → containsSub c.toList "filename=".toList = true →
      execFilenameRegex c.toList = some name →
      guessFileName url cd ft =
        if strEndsWith name ft.extension then name else name ++ ft.extension) ∧
    (∀ c, cd = some c → containsSub c.toList "filename=".toList = true →
      execFilenameRegex c.toList = none →
      guessFileName url cd ft =
        if strEndsWith "download" ft.extension then "download"
        else "download" ++ ft.extension) ∧
    ((cd = none ∨ ∃ c, cd = some c ∧ containsSub c.toList "filename=".toList = false) →
      guessFileName url cd ft =
        (let seg := afterLastSlash url
         let name := if seg.length = 0 then "download" else seg
         if strEndsWith name ft.extension then name else name ++ ft.extension)) ∧
    strEndsWith (guessFileName url cd ft) ft.extension = true := by
  refine ⟨?_, ?_, ?_, ?_⟩
  · rintro c name rfl hcont hexec
    have hpos : ¬name.length = 0 :=
      Nat.pos_iff_ne_zero.mp (execFilenameRegex_pos _ _ hexec)
    simp only [guessFileName]
    rw [hcont, hexec]
    simp [hpos]
  · rintro c rfl hcont hexec
    simp only [guessFileName]
    rw [hcont, hexec]
    simp
  · rintro (rfl | ⟨c, rfl, hcont⟩)
    · simp only [guessFileName]
    · simp only [guessFileName]
      rw [hcont]
      simp
  · exact appendExtension_endsWith _ _

/-- C8 witness: a quoted filename parameter wins the cascade and the
extension is appended. -/
theorem guessFileName_cascade_witness :
    guessFileName "http://x/y" (some "attachment; filename=\"my file\"")
      { mediaType := "application/x-bittorrent", extension := ".torrent" } =
      "my file.torrent" := by
  rw [(guessFileName_cascade "http://x/y" (some "attachment; filename=\"my file\"")
      { mediaType := "application/x-bittorrent", extension := ".torrent" }).1
    "attachment; filename=\"my file\"" "my file" rfl (by decide) (by decide)]
  decide

end SynologyDM

namespace SynologyDM

/-- C9 counterexample: submitting one URL with destination path
`downloads` (no leading separator) sends `undefined` as the destination —
not the path unchanged. -/
theorem destination_counterexample :
    (addDownloadTasksAndPoll ["http://example.com/a"] (some "downloads")
      (fun u => .url u) (.resolved (.success ()))).createRequest =
      some { file := [], uri := ["http://example.com/a"], destination := none } ∧
    ((none : Option String) == some "downloads") = false := by
  refine ⟨by decide, by decide⟩

/-- C9 (amended): whenever the batched create-task request is sent, its
destination equals the provided path with the leading separator removed
when the path starts with `/`, and is omitted (`undefined`) otherwise. -/
theorem destination_trims_leading_slash (urls : List String) (path : String)
    (resolve : String → ResolveOutcome)
    (createOutcome : PromiseOutcome (SynologyResult Unit))
    (req : CreateTaskRequest)
    (h : (addDownloadTasksAndPoll urls (some path) resolve createOutcome).createRequest =
      some req) :
    (strStartsWith path "/" = true → req.destination = some (strDrop path 1)) ∧
    (strStartsWith path "/" = false → req.destination = none) := by
  have hdest : req.destination = destinationOf (some path) := by
    unfold addDownloadTasksAndPoll at h
    by_cases h0 : urls.length > 0
    · simp only [h0, if_true] at h
      split at h
      · cases h
      · cases createOutcome <;> cases h <;> rfl
    · simp [h0] at h
  constructor
  · intro hs
    rw [hdest]
    simp [destinationOf, hs]
  · intro hs
    rw [hdest]
    simp [destinationOf, hs]

/-- C9 witness: path `/dl` yields destination `dl`. -/
theorem destination_trims_leading_slash_witness :
    ({ file := [], uri := ["http://example.com/a"], destination := some "dl" } :
      CreateTaskRequest).destination = some (strDrop "/dl" 1) :=
  (destination_trims_leading_slash ["http://example.com/a"] "/dl"
    (fun u => .url u) (.resolved (.success ())) _ (by decide)).1 (by decide)

/-- C4 code-bug demonstration: on a submission whose batched create call
settles successfully, the event trace holds exactly the one notification
created at submission start — the stored notification identity is never
updated with the outcome (the update-in-place reporter exists in the
source but is not invoked; the create result flows only into the
re-poll). -/
theorem addDownloadTasks_no_update_on_settled_create :
    (addDownloadTasksAndPoll ["http://example.com/a"] none
        (fun u => .url u) (.resolved (.success ()))).events =
      [.create "Adding download..." (some "http://example.com/a")] ∧
    (addDownloadTasksAndPoll ["http://example.com/a"] none
        (fun u => .url u) (.resolved (.success ()))).createRequest =
      some { file := [], uri := ["http://example.com/a"], destination := none } ∧
    (addDownloadTasksAndPoll ["http://example.com/a"] none
        (fun u => .url u) (.resolved (.success ()))).polled = true ∧
    ((addDownloadTasksAndPoll ["http://example.com/a"] none
        (fun u => .url u) (.resolved (.success ()))).events.all
      (fun e => match e with | .update _ _ => false | _ => true)) = true := by
  refine ⟨by decide, by decide, by decide, by decide⟩

end SynologyDM
